import Mathlib

/-!
Shallow embedding of `furniture_bench/envs/furniture_rl_sim_env.py`
(FurnitureSimEnv and FurnitureRLSimEnv), covering:

* the gripper hysteresis logic of `FurnitureSimEnv.simulate_step`;
* the assembly/reward state machine of `FurnitureRLSimEnv._reward`,
  `_done`, `step` and `reset`;
* the random part perturbation `_random_perturbation_of_parts`;
* the AprilTag/simulator frame transforms `april_coord_to_sim_coord`
  and `sim_coord_to_april_coord`;
* the lamp-bulb rest-pose handling `_handle_bulb_rest_pose`;
* `FurnitureSimEnv.get_parts_poses` and the base-class `_reward`.

Real-valued quantities are modelled over `ℚ`; torch tensors indexed by
environment/pair become functions out of `Fin` types or lists.
-/

namespace FurnitureBench

/-! ### Gripper hysteresis (`FurnitureSimEnv.simulate_step`, lines 947-959)

`grasp = action[:, -1]` is the signed grasp command; the commanded gripper
separation `grip_sep` is `max_gripper_width` (fully open) or `0` (fully
closed).  `self.grasp_margin = 0.02 - 0.001` (line 192) and `last_grasp`
is initialised to `-1.0` for every environment (line 191). -/

/-- `torch.sign` on rationals: `-1`, `0` or `1`. -/
def sign (x : ℚ) : ℚ :=
  if x < 0 then -1 else if x = 0 then 0 else 1

/-- `self.grasp_margin = 0.02 - 0.001` (line 192). -/
def graspMargin : ℚ := 2/100 - 1/1000

/-- One environment's `grip_sep` (lines 948-957):
`torch.where((sign(grasp) != sign(last_grasp)) & (abs(grasp) > margin),
   where(grasp < 0, max_width, 0), where(last_grasp < 0, max_width, 0))`. -/
def gripSep (maxWidth lastGrasp grasp : ℚ) : ℚ :=
  if sign grasp ≠ sign lastGrasp ∧ |grasp| > graspMargin then
    (if grasp < 0 then maxWidth else 0)
  else
    (if lastGrasp < 0 then maxWidth else 0)

/-- The commanded gripper separations along a sequence of step calls;
`self.last_grasp = grasp` (line 958) is updated unconditionally after
each step, so each step reads the previous step's grasp. -/
def gripCommands (maxWidth lastGrasp : ℚ) : List ℚ → List ℚ
  | [] => []
  | g :: gs => gripSep maxWidth lastGrasp g :: gripCommands maxWidth g gs

/-- The hypothesis of the debounce claim: every grasp in the sequence
flips sign relative to the previous one and stays below the hysteresis
margin in absolute value. -/
def flipsBelowMargin (lastGrasp : ℚ) : List ℚ → Bool
  | [] => true
  | g :: gs =>
    decide (sign g ≠ sign lastGrasp) && decide (|g| < graspMargin) &&
      flipsBelowMargin g gs

/-! ### Assembly/reward state machine (`FurnitureRLSimEnv`)

`already_assembled` is a `(num_envs, num_pairs)` boolean tensor
(line 1928); `env_steps` a `(num_envs,)` integer tensor (line 304).
The per-pair pose-similarity outcome `assembled_mask.any(dim=0)`
(lines 2007-2027) is computed by `C.is_similar_rot` / `C.is_similar_pos`
on the parts' relative pose; it enters the model as an arbitrary
boolean function of (environment, pair), which ranges over every
possible relative-pose configuration. -/

/-- A `(num_envs, num_pairs)` boolean tensor such as `already_assembled`
or the per-pair pose-match outcome. -/
abbrev AssembledMask (nE nP : ℕ) := Fin nE → Fin nP → Bool

variable {nE nP : ℕ}

/-- The bookkeeping state of `FurnitureRLSimEnv` relevant to reward/done. -/
structure RLState (nE nP : ℕ) where
  alreadyAssembled : AssembledMask nE nP
  envSteps : Fin nE → ℤ
  maxEnvSteps : ℤ
  manualDone : Bool

/-- `newly_assembled_mask[:, i] = assembled_mask.any(dim=0) & ~already_assembled[:, i]`
(lines 2030-2032). -/
def newlyAssembledMask (already assembled : AssembledMask nE nP) :
    AssembledMask nE nP :=
  fun e p => assembled e p && !already e p

/-- `self.already_assembled[:, i] |= newly_assembled_mask[:, i]` (line 2035). -/
def updateAlreadyAssembled (already assembled : AssembledMask nE nP) :
    AssembledMask nE nP :=
  fun e p => already e p || newlyAssembledMask already assembled e p

/-- `rewards = newly_assembled_mask.any(dim=1).float().unsqueeze(-1)` (line 2038). -/
def stepRewards (already assembled : AssembledMask nE nP) : Fin nE → ℚ :=
  fun e =>
    if ∃ p, newlyAssembledMask already assembled e p = true then 1 else 0

/-- The value returned by `FurnitureRLSimEnv._reward` (lines 1986-2048).
When `manual_done` is set and some environment's reward is 1, the method
executes `return print("Part assembled!")`, i.e. it returns Python
`None` instead of the reward tensor; this is `none` here. -/
def rewardReturn (manualDone : Bool) (already assembled : AssembledMask nE nP) :
    Option (Fin nE → ℚ) :=
  let rewards := stepRewards already assembled
  if manualDone = true ∧ ∃ e, rewards e = 1 then none else some rewards

/-- `terminated = (self.already_assembled.sum(dim=1) == len(self.pairs_to_assemble))`
(line 2055). -/
def terminatedFlag (already : AssembledMask nE nP) : Fin nE → Bool :=
  fun e => decide ((∑ p, if already e p = true then (1 : ℕ) else 0) = nP)

/-- `truncated = self.env_steps >= self.max_env_steps - 1` (line 2058). -/
def truncatedFlag (envSteps : Fin nE → ℤ) (maxEnvSteps : ℤ) : Fin nE → Bool :=
  fun e => decide (envSteps e ≥ maxEnvSteps - 1)

/-- `FurnitureRLSimEnv._done` (lines 2050-2060). -/
def doneFlags (manualDone : Bool) (already : AssembledMask nE nP)
    (envSteps : Fin nE → ℤ) (maxEnvSteps : ℤ) :
    (Fin nE → Bool) × (Fin nE → Bool) :=
  if manualDone then (fun _ => false, fun _ => false)
  else (terminatedFlag already, truncatedFlag envSteps maxEnvSteps)

/-- `FurnitureRLSimEnv.step` (lines 2062-2096): `_reward()` updates
`already_assembled` and yields the reward, `_done()` reads the updated
bits and the pre-increment step counter, then `env_steps += 1`.
Returns (new state, reward, terminated, truncated). -/
def stepCall (s : RLState nE nP) (assembled : AssembledMask nE nP) :
    RLState nE nP × Option (Fin nE → ℚ) × (Fin nE → Bool) × (Fin nE → Bool) :=
  let already' := updateAlreadyAssembled s.alreadyAssembled assembled
  let reward := rewardReturn s.manualDone s.alreadyAssembled assembled
  let done := doneFlags s.manualDone already' s.envSteps s.maxEnvSteps
  ({ s with alreadyAssembled := already',
            envSteps := fun e => s.envSteps e + 1 },
   reward, done.1, done.2)

/-- The bookkeeping state after a sequence of `step` calls, one
pose-match outcome per call. -/
def runSteps (s : RLState nE nP) (masks : List (AssembledMask nE nP)) :
    RLState nE nP :=
  masks.foldl (fun st m => (stepCall st m).1) s

/-- `FurnitureRLSimEnv.reset` (lines 1934-1947): `env_idxs=None` means
all environments; `assert env_idxs.numel() > 0` fails on an empty index
tensor (modelled as `none`); otherwise the named environments get their
`already_assembled` bits cleared and `env_steps` zeroed. -/
def resetCall (s : RLState nE nP) (envIdxs : Option (List (Fin nE))) :
    Option (RLState nE nP) :=
  let idxs := match envIdxs with
    | none => List.finRange nE
    | some l => l
  if idxs.length = 0 then none
  else some
    { s with
      alreadyAssembled := fun e p =>
        if e ∈ idxs then false else s.alreadyAssembled e p,
      envSteps := fun e => if e ∈ idxs then 0 else s.envSteps e }

/-! ### Random perturbation of parts
(`FurnitureRLSimEnv._random_perturbation_of_parts`, lines 2283-2353)

One `PerturbDraw` per flattened part-instance (one row of
`rigid_body_index_by_env.view(-1)`), carrying that part's rigid-body
index, its `torch.rand(...) < 0.01` selection outcome, the sampled
direction (`cos`/`sin` of the uniform angle), the uniform magnitude
draws, and its `force_multiplier` / `torque_multiplier` entries. -/

/-- A 3-vector of rationals (one row of a force/torque tensor). -/
structure Vec3 where
  x : ℚ
  y : ℚ
  z : ℚ
deriving DecidableEq

/-- The all-zero row of `torch.zeros((rigid_body_count, 3))`. -/
def Vec3.zero : Vec3 := ⟨0, 0, 0⟩

/-- The per-part random draws of one `_random_perturbation_of_parts` call. -/
structure PerturbDraw where
  bodyIdx : ℕ
  selected : Bool
  cosTheta : ℚ
  sinTheta : ℚ
  magRand : ℚ
  torqueRand : ℚ
  forceMult : ℚ
  torqueMult : ℚ

/-- `forces = [mag*cos(theta), mag*sin(theta), 0] * force_multiplier`
with `mag = rand * max_force_magnitude` (lines 2295-2314). -/
def perturbForce (maxForceMagnitude : ℚ) (d : PerturbDraw) : Vec3 :=
  ⟨d.magRand * maxForceMagnitude * d.cosTheta * d.forceMult,
   d.magRand * maxForceMagnitude * d.sinTheta * d.forceMult,
   0⟩

/-- `z_torques = max_torque_magnitude * (rand*2 - 1) * torque_multiplier`,
torque is `[0, 0, z]` (lines 2318-2333). -/
def perturbTorque (maxTorqueMagnitude : ℚ) (d : PerturbDraw) : Vec3 :=
  ⟨0, 0, maxTorqueMagnitude * (d.torqueRand * 2 - 1) * d.torqueMult⟩

/-- The masked scatter
`all_forces[part_rigid_body_idxs[selected_part_mask]] = forces[selected_part_mask]`
(and likewise for torques, lines 2340-2345), as a fold over the
flattened part-instance rows starting from a given accumulator. -/
def perturbFold (maxForceMagnitude maxTorqueMagnitude : ℚ)
    (draws : List PerturbDraw) (acc : (ℕ → Vec3) × (ℕ → Vec3)) :
    (ℕ → Vec3) × (ℕ → Vec3) :=
  draws.foldl
    (fun acc d =>
      if d.selected then
        (fun b => if b = d.bodyIdx then perturbForce maxForceMagnitude d
                  else acc.1 b,
         fun b => if b = d.bodyIdx then perturbTorque maxTorqueMagnitude d
                  else acc.2 b)
      else acc)
    acc

/-- The `(all_forces, all_torques)` tensors sent to
`apply_rigid_body_force_tensors`: zero-initialised (lines 2336-2337),
then the rows at the selected parts' rigid-body indices are overwritten
(lines 2340-2345). -/
def applyPerturb (maxForceMagnitude maxTorqueMagnitude : ℚ)
    (draws : List PerturbDraw) : (ℕ → Vec3) × (ℕ → Vec3) :=
  perturbFold maxForceMagnitude maxTorqueMagnitude draws
    (fun _ => Vec3.zero, fun _ => Vec3.zero)

/-! ### Frame transforms (lines 753-776)

`april_to_sim_mat = franka_from_origin_mat @ base_tag_from_robot_mat`
and `sim_to_april_mat = inv(base_tag_from_robot_mat) @
inv(franka_from_origin_mat)`; `np.linalg.inv` is the matrix inverse.
The two constant matrices are parameters here (they are built from
calibration constants in `furniture_bench.config` and
`furniture_bench.utils.pose`, outside this file). -/

/-- A homogeneous 4×4 pose matrix. -/
abbrev Mat4 := Matrix (Fin 4) (Fin 4) ℚ

/-- `np.linalg.inv`: the matrix inverse, computably over `ℚ` via the
adjugate; coincides with Mathlib's `Matrix.inv` (see `npInv_eq_inv`). -/
def npInv (A : Mat4) : Mat4 := A.det⁻¹ • A.adjugate

/-- `april_to_sim_mat` (lines 766-768). -/
def april_to_sim_mat (frankaFromOrigin baseTagFromRobot : Mat4) : Mat4 :=
  frankaFromOrigin * baseTagFromRobot

/-- `sim_to_april_mat` (lines 770-776). -/
def sim_to_april_mat (frankaFromOrigin baseTagFromRobot : Mat4) : Mat4 :=
  npInv baseTagFromRobot * npInv frankaFromOrigin

/-- `april_coord_to_sim_coord` (lines 753-755). -/
def april_coord_to_sim_coord (frankaFromOrigin baseTagFromRobot T : Mat4) :
    Mat4 :=
  april_to_sim_mat frankaFromOrigin baseTagFromRobot * T

/-- `sim_coord_to_april_coord` (lines 757-758). -/
def sim_coord_to_april_coord (frankaFromOrigin baseTagFromRobot T : Mat4) :
    Mat4 :=
  sim_to_april_mat frankaFromOrigin baseTagFromRobot * T

/-! ### Lamp-bulb rest pose (`FurnitureSimEnv._handle_bulb_rest_pose`,
lines 849-882, called from `simulate_step` lines 990-998)

`self._moving_bulbs` is a per-environment boolean tensor; the
end-effector/bulb distance check `C.is_similar_pos(lb_pos, hand_pos,
self.hand_bulb_pos_thresh)` enters the model as a per-environment
boolean `handBulbClose`. -/

/-- The furniture identifier (`self.furniture_name`); only `lamp`
matters for the bulb rest-pose logic. -/
inductive FurnitureName where
  | lamp
  | squareTable
  | other
deriving DecidableEq

/-- State read and written by `_handle_bulb_rest_pose`. -/
structure LampState (nE : ℕ) where
  furnitureName : FurnitureName
  envSteps : Fin nE → ℤ
  maxEnvSteps : ℤ
  movingBulbs : Fin nE → Bool
  handBulbClose : Fin nE → Bool

/-- `FurnitureSimEnv._handle_bulb_rest_pose` (lines 849-882).  Returns
`((any_bulbs_unsettled, rest_env_idxs), new state)`.  Note the global
release check `torch.any(self.env_steps > (self.max_env_steps / 2))`
(line 856): if ANY environment is past the halfway mark, no bulb is
reasserted for any environment on this call. -/
def handleBulbRestPose (s : LampState nE) :
    (Bool × Option (List (Fin nE))) × LampState nE :=
  if s.furnitureName ≠ FurnitureName.lamp then ((false, none), s)
  else if ∃ e, ((s.envSteps e : ℚ) > (s.maxEnvSteps : ℚ) / 2) then
    ((false, none), s)
  else
    let toRest : Fin nE → Bool :=
      fun e => (!s.movingBulbs e) && (!s.handBulbClose e)
    let envIdxToRest := (List.finRange nE).filter (fun e => toRest e)
    let s' := { s with
      movingBulbs := fun e => if toRest e then s.movingBulbs e else true }
    if envIdxToRest.length > 0 then ((true, some envIdxToRest), s')
    else ((false, none), s')

/-! ### `get_parts_poses` and the base-class `_reward`
(lines 1035-1059 and 1087-1109)

With `sim_coord=True`, `get_parts_poses` returns the single tensor
`rb_states[furniture_rb_indices, :7].reshape(num_envs, -1)` — one row
per environment, `num_parts * 7` scalars per row — and never the
`(parts_poses, founds)` pair its docstring documents.  The base-class
`_reward` nevertheless executes
`parts_poses, founds = self.get_parts_poses(sim_coord=True)`, which in
Python tuple-unpacks the tensor along its first dimension and succeeds
exactly when that dimension has size 2. -/

/-- The tensor returned by `get_parts_poses(sim_coord=True)`, as a list
of per-environment rows, each row the concatenation of `num_parts`
7-component poses (line 1098-1100). -/
def getPartsPosesSim (nParts : ℕ) (rbStates : Fin nE → Fin nParts → Fin 7 → ℚ) :
    List (List ℚ) :=
  (List.finRange nE).map fun e =>
    (List.finRange nParts).flatMap fun p =>
      (List.finRange 7).map fun k => rbStates e p k

/-- Python iterable unpacking `a, b = t` of a tensor `t` along its
first dimension: succeeds exactly for two rows. -/
def unpackTwo (l : List α) : Option (α × α) :=
  match l with
  | [a, b] => some (a, b)
  | _ => none

/-- The unpacking step of the base-class `FurnitureSimEnv._reward`
(line 1048): `parts_poses, founds = self.get_parts_poses(sim_coord=True)`. -/
def baseRewardUnpack (nParts : ℕ)
    (rbStates : Fin nE → Fin nParts → Fin 7 → ℚ) :
    Option (List ℚ × List ℚ) :=
  unpackTwo (getPartsPosesSim nParts rbStates)

/-! ### Concrete example states (used by the witness theorems below) -/

/-- One environment, two assembly pairs, nothing assembled, step 0,
horizon 10, normal (non-manual) mode. -/
def exState12 : RLState 1 2 :=
  ⟨fun _ _ => false, fun _ => 0, 10, false⟩

/-- Pose-match outcome where both pairs match simultaneously. -/
def exMaskTrue12 : AssembledMask 1 2 := fun _ _ => true

/-- One environment, one pair, already latched assembled. -/
def exState11T : RLState 1 1 :=
  ⟨fun _ _ => true, fun _ => 0, 10, false⟩

/-- Pose-match outcome where the pair no longer matches. -/
def exMaskFalse11 : AssembledMask 1 1 := fun _ _ => false

/-- Pose-match outcome where the pair matches. -/
def exMaskTrue11 : AssembledMask 1 1 := fun _ _ => true

/-- One environment, one pair, unassembled, step counter at
`max_env_steps - 1 = 9`, manual-done mode off. -/
def exState11Last : RLState 1 1 :=
  ⟨fun _ _ => false, fun _ => 9, 10, false⟩

/-- One environment, one pair, unassembled, manual-done mode on. -/
def exState11M : RLState 1 1 :=
  ⟨fun _ _ => false, fun _ => 0, 10, true⟩

/-- A single part-instance draw: rigid body 5, selected, direction
`(cos, sin) = (1, 0)`, magnitude draw `1/2`, torque draw `1/3`,
multipliers 2 and 3. -/
def exDraws : List PerturbDraw :=
  [⟨5, true, 1, 0, 1/2, 1/3, 2, 3⟩]

/-- A concrete `franka_from_origin_mat`: pure translation by
`(-3/10, 0, 43/100)` (homogeneous, zero rotation), as built by
`get_mat([x, y, z], [0, 0, 0])` at line 288. -/
def exFrankaFromOrigin : Mat4 :=
  !![1, 0, 0, -3/10; 0, 1, 0, 0; 0, 0, 1, 43/100; 0, 0, 0, 1]

/-- A concrete homogeneous pose to round-trip. -/
def exPose : Mat4 :=
  !![0, -1, 0, 1/2; 1, 0, 0, -1/4; 0, 0, 1, 7/100; 0, 0, 0, 1]

/-- Two lamp environments with horizon 100: environment 0 is past the
halfway mark (step 60), environment 1 is at step 0, neither bulb is
moving and neither hand is close to its bulb. -/
def exLampPastHalf : LampState 2 :=
  ⟨FurnitureName.lamp, fun e => if e = 0 then 60 else 0, 100,
   fun _ => false, fun _ => false⟩

/-- Two lamp environments in the first half (both at step 3, horizon
100): environment 0's bulb is already moving (released), environment
1's is not; no hand is close. -/
def exLampFirstHalf : LampState 2 :=
  ⟨FurnitureName.lamp, fun _ => 3, 100,
   fun e => decide (e = 0), fun _ => false⟩

/-! ## Helper lemmas -/

/-- A latched `already_assembled` bit survives one `step` call, whatever
the pose-match outcome. -/
theorem stepCall_preserves_assembled (s : RLState nE nP)
    (m : AssembledMask nE nP) (e : Fin nE) (p : Fin nP)
    (h : s.alreadyAssembled e p = true) :
    (stepCall s m).1.alreadyAssembled e p = true := by
  simp [stepCall, updateAlreadyAssembled, h]

/-- A latched `already_assembled` bit survives any sequence of `step`
calls. -/
theorem runSteps_preserves_assembled (masks : List (AssembledMask nE nP))
    (s : RLState nE nP) (e : Fin nE) (p : Fin nP)
    (h : s.alreadyAssembled e p = true) :
    (runSteps s masks).alreadyAssembled e p = true := by
  induction masks generalizing s with
  | nil => exact h
  | cons m ms ih => exact ih _ (stepCall_preserves_assembled s m e p h)

/-- `already_assembled.sum(dim=1) == num_pairs` holds exactly when every
pair's bit is set. -/
theorem sum_indicator_eq_card_iff (f : Fin nP → Bool) :
    ((∑ p, if f p = true then (1 : ℕ) else 0) = nP) ↔ ∀ p, f p = true := by
  constructor
  · intro h
    by_contra hc
    push_neg at hc
    obtain ⟨p₀, hp₀⟩ := hc
    have hlt : (∑ p, if f p = true then (1 : ℕ) else 0) <
        ∑ _p : Fin nP, 1 := by
      refine Finset.sum_lt_sum (fun i _ => ?_) ⟨p₀, Finset.mem_univ _, ?_⟩
      · split <;> omega
      · simp [hp₀]
    simp only [Finset.sum_const, Finset.card_univ, Fintype.card_fin,
      smul_eq_mul, mul_one] at hlt
    omega
  · intro h
    simp [h]

/-- The per-environment reward is `1` exactly when some pair newly
matches. -/
theorem stepRewards_eq_one_iff (already assembled : AssembledMask nE nP)
    (e : Fin nE) :
    stepRewards already assembled e = 1 ↔
      ∃ p, assembled e p = true ∧ already e p = false := by
  unfold stepRewards
  split
  · rename_i hx
    simp only [eq_self_iff_true, true_iff]
    obtain ⟨p, hp⟩ := hx
    refine ⟨p, ?_⟩
    simpa [newlyAssembledMask, Bool.and_eq_true, Bool.not_eq_true'] using hp
  · rename_i hx
    norm_num
    intro p hp
    by_contra hq
    rw [Bool.not_eq_true] at hq
    exact hx ⟨p, by simp [newlyAssembledMask, hp, hq]⟩

/-! ## Claim theorems -/

/-- C1: once a pair's `already_assembled` bit is set for an environment
it stays set across every subsequent `step` call regardless of the
parts' later relative poses (the pose-match outcomes `masks` are
arbitrary), and it is cleared exactly by a `reset` naming that
environment. -/
theorem C1_assembled_latched_until_reset (s : RLState nE nP)
    (masks : List (AssembledMask nE nP)) (e : Fin nE) (p : Fin nP)
    (h : s.alreadyAssembled e p = true) :
    (runSteps s masks).alreadyAssembled e p = true ∧
    ∀ (idxs : List (Fin nE)) (s' : RLState nE nP),
      resetCall (runSteps s masks) (some idxs) = some s' →
      (e ∈ idxs → s'.alreadyAssembled e p = false) ∧
      (e ∉ idxs → s'.alreadyAssembled e p = true) := by
  have hrun := runSteps_preserves_assembled masks s e p h
  refine ⟨hrun, fun idxs s' hr => ?_⟩
  unfold resetCall at hr
  by_cases hl : idxs.length = 0
  · simp [hl] at hr
  · simp only [hl, if_false] at hr
    cases hr
    constructor
    · intro he
      simp [he]
    · intro he
      simp [he, hrun]

/-- Witness for C1: a latched bit survives a step whose pose match
fails, and is cleared by a reset naming its environment. -/
theorem C1_witness :
    (runSteps exState11T [exMaskFalse11]).alreadyAssembled 0 0 = true ∧
    ∀ s', resetCall (runSteps exState11T [exMaskFalse11]) (some [0]) = some s' →
      s'.alreadyAssembled 0 0 = false := by
  have h := C1_assembled_latched_until_reset exState11T [exMaskFalse11] 0 0 rfl
  exact ⟨h.1, fun s' hr => (h.2 [0] s' hr).1 (by decide)⟩

/-- C2: outside manual-override mode, the reward tensor is returned and
each environment's reward is the indicator of "some required pair newly
transitioned this tick" — `1` even when several pairs transition
simultaneously, else `0`. -/
theorem C2_reward_indicator (s : RLState nE nP) (m : AssembledMask nE nP)
    (h : s.manualDone = false) :
    (stepCall s m).2.1 =
      some (fun e =>
        if ∃ p, m e p = true ∧ s.alreadyAssembled e p = false then (1 : ℚ)
        else 0) := by
  simp only [stepCall, rewardReturn]
  rw [if_neg (by simp [h])]
  congr 1
  funext e
  have hiff : (∃ p, newlyAssembledMask s.alreadyAssembled m e p = true) ↔
      ∃ p, m e p = true ∧ s.alreadyAssembled e p = false := by
    simp [newlyAssembledMask, Bool.and_eq_true, Bool.not_eq_true']
  unfold stepRewards
  rw [if_congr hiff rfl rfl]

/-- Witness for C2: both pairs of the example transition on the same
tick and the environment's reward is `1`, not `2`. -/
theorem C2_witness :
    (stepCall exState12 exMaskTrue12).2.1 = some (fun _ => (1 : ℚ)) := by
  have h := C2_reward_indicator exState12 exMaskTrue12 rfl
  rw [h]
  congr 1

/-- C3: outside manual-override mode, the step made with the counter at
`max_env_steps - 1` is truncated, any earlier step is not (whatever the
assembly state), and `terminated` holds exactly when every required
pair's bit is latched after this tick's update. -/
theorem C3_truncated_boundary (s : RLState nE nP) (m : AssembledMask nE nP)
    (e : Fin nE) (h : s.manualDone = false) :
    (s.envSteps e = s.maxEnvSteps - 1 → (stepCall s m).2.2.2 e = true) ∧
    (s.envSteps e < s.maxEnvSteps - 1 → (stepCall s m).2.2.2 e = false) ∧
    ((stepCall s m).2.2.1 e = true ↔
      ∀ p, (stepCall s m).1.alreadyAssembled e p = true) := by
  simp only [stepCall, doneFlags, h, Bool.false_eq_true, if_false]
  refine ⟨?_, ?_, ?_⟩
  · intro heq
    simp [truncatedFlag, heq]
  · intro hlt
    simp only [truncatedFlag, decide_eq_false_iff_not]
    omega
  · simp only [terminatedFlag, decide_eq_true_eq]
    exact sum_indicator_eq_card_iff _

/-- Witness for C3: with the counter at `max_env_steps - 1 = 9` the step
is truncated, and with the single pair newly matching it is terminated. -/
theorem C3_witness :
    (stepCall exState11Last exMaskTrue11).2.2.2 0 = true ∧
    (stepCall exState11Last exMaskTrue11).2.2.1 0 = true := by
  have h := C3_truncated_boundary exState11Last exMaskTrue11 0 rfl
  exact ⟨h.1 (by decide), h.2.2.mpr (by decide)⟩

/-- C4 (counterexample to the claim as stated): starting from
`last_grasp = -1` (the initial value) with the gripper commanded fully
open (`grip_sep = max_width`), the two-step sequence `[0.01, -0.01]` —
each step flipping sign with magnitude below the margin `0.019` —
changes the commanded width to `0` (fully closed), because
`last_grasp = grasp` is updated unconditionally (line 958). -/
theorem C4_counterexample :
    flipsBelowMargin (-1) [1/100, -1/100] = true ∧
    gripSep (8/100) (-1) (-1) = 8/100 ∧
    gripCommands (8/100) (-1) [1/100, -1/100] = [8/100, 0] ∧
    (0 : ℚ) ≠ 8/100 := by
  have ha : |(1 : ℚ)/100| = 1/100 := abs_of_pos (by norm_num)
  have hb : |(-1 : ℚ)/100| = 1/100 := by
    rw [abs_of_neg (by norm_num)]
    norm_num
  have e1 : gripSep (8/100) (-1) (1/100) = 8/100 := by
    unfold gripSep
    rw [if_neg (fun hc => absurd hc.2 (by rw [ha]; norm_num [graspMargin])),
      if_pos (by norm_num)]
  have e2 : gripSep (8/100) (1/100) (-1/100) = 0 := by
    unfold gripSep
    rw [if_neg (fun hc => absurd hc.2 (by rw [hb]; norm_num [graspMargin])),
      if_neg (by norm_num)]
  refine ⟨?_, ?_, ?_, by norm_num⟩
  · have s1 : sign (1/100 : ℚ) ≠ sign (-1 : ℚ) := by norm_num [sign]
    have s2 : |(1 : ℚ)/100| < graspMargin := by
      rw [ha]; norm_num [graspMargin]
    have s3 : sign (-1/100 : ℚ) ≠ sign (1/100 : ℚ) := by norm_num [sign]
    have s4 : |(-1 : ℚ)/100| < graspMargin := by
      rw [hb]; norm_num [graspMargin]
    simp only [flipsBelowMargin, Bool.and_eq_true, decide_eq_true_eq]
    exact ⟨⟨s1, s2⟩, ⟨s3, s4⟩, trivial⟩
  · unfold gripSep
    rw [if_neg (by norm_num [sign]), if_pos (by norm_num)]
  · simp only [gripCommands, e1, e2]

/-- C4 (amended): any single step whose grasp magnitude does not exceed
the hysteresis margin leaves the commanded width at the value dictated
by the sign of the previous step's grasp — the debounce holds for one
sub-margin action, but not across a sequence of sign flips, since
`last_grasp` is updated unconditionally. -/
theorem C4_submargin_step (maxWidth lastGrasp g : ℚ)
    (h : |g| ≤ graspMargin) :
    gripSep maxWidth lastGrasp g = if lastGrasp < 0 then maxWidth else 0 := by
  unfold gripSep
  rw [if_neg]
  rintro ⟨-, h2⟩
  exact absurd h2 (not_lt.mpr h)

/-- Witness for the amended C4: a sub-margin sign flip after the initial
`last_grasp = -1` keeps the gripper commanded fully open. -/
theorem C4_witness :
    |(1 : ℚ)/100| ≤ graspMargin ∧ gripSep (8/100) (-1) (1/100) = 8/100 := by
  have hm : |(1 : ℚ)/100| ≤ graspMargin := by
    rw [abs_of_pos (by norm_num)]
    norm_num [graspMargin]
  have h := C4_submargin_step (8/100) (-1) (1/100) hm
  rw [if_pos (by norm_num)] at h
  exact ⟨hm, h⟩

/-- C5 (amended): with `manual_done` set, `terminated` and `truncated`
are `False` for every environment and the `already_assembled` bits
still advance, but the value returned by `_reward` is the all-zero
reward tensor only when no pair newly assembled anywhere; when some
pair newly assembled, `_reward` executes `return print(...)` and yields
`None` instead of a tensor. -/
theorem C5_manualDone_step (s : RLState nE nP) (m : AssembledMask nE nP)
    (h : s.manualDone = true) :
    (∀ e, (stepCall s m).2.2.1 e = false) ∧
    (∀ e, (stepCall s m).2.2.2 e = false) ∧
    (stepCall s m).1.alreadyAssembled =
      updateAlreadyAssembled s.alreadyAssembled m ∧
    (stepCall s m).2.1 =
      (if ∃ e p, m e p = true ∧ s.alreadyAssembled e p = false then none
       else some (fun _ => 0)) := by
  refine ⟨?_, ?_, rfl, ?_⟩
  · intro e
    simp [stepCall, doneFlags, h]
  · intro e
    simp [stepCall, doneFlags, h]
  · simp only [stepCall, rewardReturn]
    by_cases hx : ∃ e p, m e p = true ∧ s.alreadyAssembled e p = false
    · have hex : ∃ e, stepRewards s.alreadyAssembled m e = 1 := by
        obtain ⟨e, p, hmp, hap⟩ := hx
        exact ⟨e, (stepRewards_eq_one_iff _ _ _).mpr ⟨p, hmp, hap⟩⟩
      rw [if_pos ⟨h, hex⟩, if_pos hx]
    · have hex : ¬(s.manualDone = true ∧
          ∃ e, stepRewards s.alreadyAssembled m e = 1) := by
        rintro ⟨-, e, he⟩
        rw [stepRewards_eq_one_iff] at he
        obtain ⟨p, hp⟩ := he
        exact hx ⟨e, p, hp⟩
      rw [if_neg hex, if_neg hx]
      congr 1
      funext e
      unfold stepRewards
      rw [if_neg]
      rintro ⟨p, hp⟩
      refine hx ⟨e, p, ?_⟩
      simpa [newlyAssembledMask, Bool.and_eq_true, Bool.not_eq_true'] using hp

/-- Witness for the amended C5: concrete manual-done environment whose
pair newly assembles — done flags stay false, the bit advances, and the
reward value is `None`. -/
theorem C5_witness :
    (∀ e, (stepCall exState11M exMaskTrue11).2.2.1 e = false) ∧
    (∀ e, (stepCall exState11M exMaskTrue11).2.2.2 e = false) ∧
    (stepCall exState11M exMaskTrue11).1.alreadyAssembled =
      updateAlreadyAssembled exState11M.alreadyAssembled exMaskTrue11 ∧
    (stepCall exState11M exMaskTrue11).2.1 =
      (if ∃ e p, exMaskTrue11 e p = true ∧
          exState11M.alreadyAssembled e p = false then none
       else some (fun _ => 0)) :=
  C5_manualDone_step exState11M exMaskTrue11 rfl

/-- C5 (counterexample to the claim as stated): in manual-done mode, a
step on which the pair newly assembles returns `None` as the reward —
not a zero reward tensor. -/
theorem C5_counterexample :
    exState11M.manualDone = true ∧
    (stepCall exState11M exMaskTrue11).2.1 = none ∧
    (none : Option (Fin 1 → ℚ)) ≠ some (fun _ => (0 : ℚ)) := by
  refine ⟨rfl, ?_, by simp⟩
  have hcond : exState11M.manualDone = true ∧
      ∃ e, stepRewards exState11M.alreadyAssembled exMaskTrue11 e = 1 :=
    ⟨rfl, 0, by simp only [stepRewards]; rw [if_pos ⟨0, rfl⟩]⟩
  have hr : rewardReturn exState11M.manualDone
      exState11M.alreadyAssembled exMaskTrue11 = none := by
    simp only [rewardReturn]
    rw [if_pos hcond]
  exact hr

/-- C9: an explicitly empty environment-index tensor fails the
assertion in `reset` (modelled as `none`, not a silent no-op); omitting
the argument resets every environment; a non-empty subset clears the
assembly bits and zeroes the step counters of exactly the named
environments. -/
theorem C9_reset_subset (s : RLState nE nP) :
    resetCall s (some ([] : List (Fin nE))) = none ∧
    (0 < nE → ∃ s', resetCall s none = some s' ∧
      ∀ e, (∀ p, s'.alreadyAssembled e p = false) ∧ s'.envSteps e = 0) ∧
    ∀ idxs : List (Fin nE), idxs ≠ [] →
      ∃ s', resetCall s (some idxs) = some s' ∧
        ∀ e, (e ∈ idxs →
                (∀ p, s'.alreadyAssembled e p = false) ∧ s'.envSteps e = 0) ∧
             (e ∉ idxs →
                (∀ p, s'.alreadyAssembled e p = s.alreadyAssembled e p) ∧
                s'.envSteps e = s.envSteps e) := by
  refine ⟨?_, ?_, ?_⟩
  · simp [resetCall]
  · intro hn
    simp only [resetCall]
    rw [if_neg (by simp [List.length_finRange]; omega)]
    refine ⟨_, rfl, fun e => ⟨fun p => ?_, ?_⟩⟩
    · simp [List.mem_finRange]
    · simp [List.mem_finRange]
  · intro idxs hne
    simp only [resetCall]
    rw [if_neg (by simpa [List.length_eq_zero] using hne)]
    refine ⟨_, rfl, fun e => ⟨fun he => ⟨fun p => ?_, ?_⟩,
      fun he => ⟨fun p => ?_, ?_⟩⟩⟩
    all_goals simp [he]

/-- Witness for C9: the empty reset fails the assertion, and resetting
environment 0 clears its latched bit and its step counter. -/
theorem C9_witness :
    resetCall exState11T (some ([] : List (Fin 1))) = none ∧
    ∃ s', resetCall exState11T (some [0]) = some s' ∧
      s'.alreadyAssembled 0 0 = false ∧ s'.envSteps 0 = 0 := by
  obtain ⟨h1, -, h3⟩ := C9_reset_subset exState11T
  obtain ⟨s', hs', hprop⟩ := h3 [0] (by decide)
  exact ⟨h1, s', hs', ((hprop 0).1 (by decide)).1 0, ((hprop 0).1 (by decide)).2⟩

/-- With both magnitude ceilings at zero, every generated force and
torque row is the zero vector. -/
theorem perturbForce_zero (d : PerturbDraw) :
    perturbForce 0 d = Vec3.zero ∧ perturbTorque 0 d = Vec3.zero := by
  constructor <;> simp [perturbForce, perturbTorque, Vec3.zero]

/-- The scatter fold keeps a zero row zero when both ceilings are zero. -/
theorem perturbFold_zero_mag (draws : List PerturbDraw)
    (acc : (ℕ → Vec3) × (ℕ → Vec3)) (b : ℕ)
    (h1 : acc.1 b = Vec3.zero) (h2 : acc.2 b = Vec3.zero) :
    (perturbFold 0 0 draws acc).1 b = Vec3.zero ∧
    (perturbFold 0 0 draws acc).2 b = Vec3.zero := by
  induction draws generalizing acc with
  | nil => exact ⟨h1, h2⟩
  | cons d ds ih =>
    simp only [perturbFold, List.foldl_cons] at ih ⊢
    by_cases hd : d.selected
    · refine ih _ ?_ ?_ <;> simp only [hd, if_true]
      · by_cases hb : b = d.bodyIdx
        · simp [hb, (perturbForce_zero d).1]
        · simp [hb, h1]
      · by_cases hb : b = d.bodyIdx
        · simp [hb, (perturbForce_zero d).2]
        · simp [hb, h2]
    · refine ih _ ?_ ?_ <;> simp only [hd, if_false]
      · exact h1
      · exact h2

/-- The scatter fold never touches a rigid-body row whose index is not
among the selected parts. -/
theorem perturbFold_unselected (maxF maxT : ℚ) (draws : List PerturbDraw)
    (acc : (ℕ → Vec3) × (ℕ → Vec3)) (b : ℕ)
    (hsel : ∀ d ∈ draws, d.selected = true → d.bodyIdx ≠ b) :
    (perturbFold maxF maxT draws acc).1 b = acc.1 b ∧
    (perturbFold maxF maxT draws acc).2 b = acc.2 b := by
  induction draws generalizing acc with
  | nil => exact ⟨rfl, rfl⟩
  | cons d ds ih =>
    simp only [perturbFold, List.foldl_cons] at ih ⊢
    have hds : ∀ d' ∈ ds, d'.selected = true → d'.bodyIdx ≠ b :=
      fun d' hd' => hsel d' (List.mem_cons_of_mem d hd')
    by_cases hd : d.selected
    · have hb : ¬(b = d.bodyIdx) :=
        fun hb => hsel d (List.mem_cons_self d ds) hd (hb ▸ rfl)
      obtain ⟨ihf, iht⟩ := ih _ hds
      simp only [hd, if_true] at ihf iht ⊢
      rw [ihf, iht]
      simp [hb]
    · obtain ⟨ihf, iht⟩ := ih _ hds
      simp only [hd, if_false] at ihf iht ⊢
      exact ⟨ihf, iht⟩

/-- C6: with `max_force_magnitude = 0` and `max_torque_magnitude = 0`
the force/torque tensors sent to the engine are all-zero for any random
selection; and for any magnitudes, every rigid body outside the
selected subset keeps exactly-zero force and torque rows. -/
theorem C6_perturbation_zero_rows (draws : List PerturbDraw)
    (maxF maxT : ℚ) (b : ℕ) :
    (maxF = 0 ∧ maxT = 0 →
      (applyPerturb maxF maxT draws).1 b = Vec3.zero ∧
      (applyPerturb maxF maxT draws).2 b = Vec3.zero) ∧
    ((∀ d ∈ draws, d.selected = true → d.bodyIdx ≠ b) →
      (applyPerturb maxF maxT draws).1 b = Vec3.zero ∧
      (applyPerturb maxF maxT draws).2 b = Vec3.zero) := by
  constructor
  · rintro ⟨rfl, rfl⟩
    exact perturbFold_zero_mag draws _ b rfl rfl
  · intro hsel
    exact perturbFold_unselected maxF maxT draws _ b hsel

/-- Witness for C6: zero ceilings give a zero row even at the selected
body (index 5), and with nonzero ceilings the untouched body 9 keeps a
zero row. -/
theorem C6_witness :
    ((applyPerturb 0 0 exDraws).1 5 = Vec3.zero ∧
     (applyPerturb 0 0 exDraws).2 5 = Vec3.zero) ∧
    ((applyPerturb 1 1 exDraws).1 9 = Vec3.zero ∧
     (applyPerturb 1 1 exDraws).2 9 = Vec3.zero) := by
  have h1 := C6_perturbation_zero_rows exDraws 0 0 5
  have h2 := C6_perturbation_zero_rows exDraws 1 1 9
  exact ⟨h1.1 ⟨rfl, rfl⟩, h2.2 (by decide)⟩

/-- `np.linalg.inv` agrees with Mathlib's matrix inverse. -/
theorem npInv_eq_inv (A : Mat4) : npInv A = A⁻¹ := by
  rw [Matrix.inv_def, npInv, Ring.inverse_eq_inv]

/-- C7: whenever the two calibration matrices are invertible, the
constant matrices `april_to_sim_mat` and `sim_to_april_mat` are exact
two-sided inverses of each other, so converting any homogeneous pose
from the AprilTag frame to the simulator frame and back is the
identity. -/
theorem C7_frame_roundtrip (F B T : Mat4)
    (hF : IsUnit F.det) (hB : IsUnit B.det) :
    sim_coord_to_april_coord F B (april_coord_to_sim_coord F B T) = T ∧
    sim_to_april_mat F B * april_to_sim_mat F B = 1 ∧
    april_to_sim_mat F B * sim_to_april_mat F B = 1 := by
  have h1 : sim_to_april_mat F B * april_to_sim_mat F B = 1 := by
    unfold sim_to_april_mat april_to_sim_mat
    rw [npInv_eq_inv, npInv_eq_inv, mul_assoc, ← mul_assoc F⁻¹ F B,
      Matrix.nonsing_inv_mul F hF, one_mul, Matrix.nonsing_inv_mul B hB]
  have h2 : april_to_sim_mat F B * sim_to_april_mat F B = 1 := by
    unfold sim_to_april_mat april_to_sim_mat
    rw [npInv_eq_inv, npInv_eq_inv, mul_assoc, ← mul_assoc B B⁻¹ F⁻¹,
      Matrix.mul_nonsing_inv B hB, one_mul, Matrix.mul_nonsing_inv F hF]
  refine ⟨?_, h1, h2⟩
  unfold sim_coord_to_april_coord april_coord_to_sim_coord
  rw [← mul_assoc, h1, one_mul]

/-- Witness for C7: round-tripping a concrete pose through the concrete
translation `franka_from_origin` (with `base_tag_from_robot` the
identity) returns the pose. -/
theorem C7_witness :
    sim_coord_to_april_coord exFrankaFromOrigin 1
      (april_coord_to_sim_coord exFrankaFromOrigin 1 exPose) = exPose := by
  have hdet : exFrankaFromOrigin.det = 1 := by
    simp [exFrankaFromOrigin, Matrix.det_succ_row_zero, Fin.sum_univ_succ]
  have hF : IsUnit exFrankaFromOrigin.det := by
    rw [hdet]; exact isUnit_one
  have hB : IsUnit (1 : Mat4).det := by
    rw [Matrix.det_one]; exact isUnit_one
  exact (C7_frame_roundtrip exFrankaFromOrigin 1 exPose hF hB).1

/-- C8 (counterexample to the claim as stated): in the concrete lamp
state, environment 1 is in the first half of its horizon (step 0 of
100), its bulb is not yet released and its hand is far from the bulb,
yet no bulb is reasserted at all — because environment 0 is past the
halfway mark and the release check is `torch.any` over ALL
environments, not per-environment. -/
theorem C8_counterexample :
    exLampPastHalf.furnitureName = FurnitureName.lamp ∧
    ¬((exLampPastHalf.envSteps 1 : ℚ) > (exLampPastHalf.maxEnvSteps : ℚ) / 2) ∧
    exLampPastHalf.movingBulbs 1 = false ∧
    exLampPastHalf.handBulbClose 1 = false ∧
    (handleBulbRestPose exLampPastHalf).1.1 = false ∧
    (handleBulbRestPose exLampPastHalf).1.2 = none := by
  have heval : handleBulbRestPose exLampPastHalf =
      ((false, none), exLampPastHalf) := by
    unfold handleBulbRestPose
    rw [if_neg (fun hc => hc rfl), if_pos]
    refine ⟨0, ?_⟩
    show ((60 : ℤ) : ℚ) > ((100 : ℤ) : ℚ) / 2
    norm_num
  refine ⟨rfl, ?_, rfl, rfl, by rw [heval], by rw [heval]⟩
  show ¬(((0 : ℤ) : ℚ) > ((100 : ℤ) : ℚ) / 2)
  norm_num

/-- C8 (amended): on each `_handle_bulb_rest_pose` call for the lamp
task, an environment in a state where NO environment is past half the
horizon, whose bulb is not yet released and whose hand is farther than
the threshold, is included in the reassert set (so its bulb pose is
reasserted each substep of this tick); an environment whose hand came
within the threshold has its bulb marked released; and a released bulb
is never reasserted again and stays released.  Unlike the claim, the
halfway release is global: any single environment past the halfway mark
suppresses reasserting for every environment on that call. -/
theorem C8_bulb_rest_pose (s : LampState nE) (e : Fin nE) :
    (s.furnitureName = FurnitureName.lamp →
      (∀ e', ¬((s.envSteps e' : ℚ) > (s.maxEnvSteps : ℚ) / 2)) →
      s.movingBulbs e = false → s.handBulbClose e = false →
      (handleBulbRestPose s).1.1 = true ∧
      ∃ l, (handleBulbRestPose s).1.2 = some l ∧ e ∈ l) ∧
    (s.furnitureName = FurnitureName.lamp →
      (∀ e', ¬((s.envSteps e' : ℚ) > (s.maxEnvSteps : ℚ) / 2)) →
      s.handBulbClose e = true →
      ((handleBulbRestPose s).2).movingBulbs e = true) ∧
    (s.movingBulbs e = true →
      ((handleBulbRestPose s).2).movingBulbs e = true ∧
      ∀ l, (handleBulbRestPose s).1.2 = some l → e ∉ l) := by
  by_cases hname : s.furnitureName ≠ FurnitureName.lamp
  · have heval : handleBulbRestPose s = ((false, none), s) := by
      unfold handleBulbRestPose
      rw [if_pos hname]
    refine ⟨fun hl => absurd hl hname, fun hl => absurd hl hname, fun hm => ?_⟩
    rw [heval]
    exact ⟨hm, fun l hl => by simp at hl⟩
  · push_neg at hname
    by_cases hhalf : ∃ e', ((s.envSteps e' : ℚ) > (s.maxEnvSteps : ℚ) / 2)
    · have heval : handleBulbRestPose s = ((false, none), s) := by
        unfold handleBulbRestPose
        rw [if_neg (fun hc => hc hname), if_pos hhalf]
      obtain ⟨e', he'⟩ := hhalf
      refine ⟨fun _ hno => absurd he' (hno e'),
        fun _ hno => absurd he' (hno e'), fun hm => ?_⟩
      rw [heval]
      exact ⟨hm, fun l hl => by simp at hl⟩
    · have heval : handleBulbRestPose s =
          (if ((List.finRange nE).filter
                (fun e => (!s.movingBulbs e) && (!s.handBulbClose e))).length > 0
           then ((true, some ((List.finRange nE).filter
                (fun e => (!s.movingBulbs e) && (!s.handBulbClose e)))),
                { s with movingBulbs := fun e =>
                    if (!s.movingBulbs e) && (!s.handBulbClose e)
                    then s.movingBulbs e else true })
           else ((false, none),
                { s with movingBulbs := fun e =>
                    if (!s.movingBulbs e) && (!s.handBulbClose e)
                    then s.movingBulbs e else true })) := by
        unfold handleBulbRestPose
        rw [if_neg (fun hc => hc hname), if_neg hhalf]
      refine ⟨fun _ _ hm hc => ?_, fun _ _ hc => ?_, fun hm => ?_⟩
      · have hmem : e ∈ (List.finRange nE).filter
            (fun e => (!s.movingBulbs e) && (!s.handBulbClose e)) := by
          rw [List.mem_filter]
          exact ⟨List.mem_finRange e, by simp [hm, hc]⟩
        have hpos : ((List.finRange nE).filter
            (fun e => (!s.movingBulbs e) && (!s.handBulbClose e))).length > 0 :=
          List.length_pos.mpr (fun hnil => by simp [hnil] at hmem)
        rw [heval, if_pos hpos]
        exact ⟨rfl, _, rfl, hmem⟩
      · rw [heval]
        split
        · simp [hc]
        · simp [hc]
      · constructor
        · rw [heval]
          split
          · simp [hm]
          · simp [hm]
        · intro l hl hmem
          rw [heval] at hl
          revert hl
          split
          · intro hl
            rw [Option.some.injEq] at hl
            subst hl
            rw [List.mem_filter] at hmem
            simp [hm] at hmem
          · intro hl
            simp at hl

/-- Witness for the amended C8: in the first-half example, environment
1 (unreleased, far) is reasserted, and environment 0 (already released)
is excluded and stays released. -/
theorem C8_witness :
    ((handleBulbRestPose exLampFirstHalf).1.1 = true ∧
      ∃ l, (handleBulbRestPose exLampFirstHalf).1.2 = some l ∧ (1 : Fin 2) ∈ l) ∧
    ((handleBulbRestPose exLampFirstHalf).2).movingBulbs 0 = true ∧
    ∀ l, (handleBulbRestPose exLampFirstHalf).1.2 = some l → (0 : Fin 2) ∉ l := by
  have hno : ∀ e', ¬((exLampFirstHalf.envSteps e' : ℚ) >
      (exLampFirstHalf.maxEnvSteps : ℚ) / 2) := by
    intro e'
    show ¬(((3 : ℤ) : ℚ) > ((100 : ℤ) : ℚ) / 2)
    norm_num
  have h1 := C8_bulb_rest_pose exLampFirstHalf 1
  have h0 := C8_bulb_rest_pose exLampFirstHalf 0
  exact ⟨h1.1 rfl hno rfl rfl, (h0.2.2 rfl).1, (h0.2.2 rfl).2⟩

/-- Python tuple unpacking of a two-element pattern succeeds exactly on
two rows. -/
theorem unpackTwo_isSome_iff (l : List α) :
    (unpackTwo l).isSome = true ↔ l.length = 2 := by
  rcases l with - | ⟨a, - | ⟨b, - | ⟨c, t⟩⟩⟩ <;> simp [unpackTwo]

/-- C10: `get_parts_poses(sim_coord=True)` returns one tensor of shape
`(num_envs, num_parts * 7)`, so the base-class `_reward`'s unpacking
`parts_poses, founds = get_parts_poses(sim_coord=True)` is well-defined
exactly when `num_envs = 2`. -/
theorem C10_unpack_needs_two_envs (nParts : ℕ)
    (rbStates : Fin nE → Fin nParts → Fin 7 → ℚ) :
    (getPartsPosesSim nParts rbStates).length = nE ∧
    (∀ row ∈ getPartsPosesSim nParts rbStates, row.length = nParts * 7) ∧
    ((baseRewardUnpack nParts rbStates).isSome = true ↔ nE = 2) := by
  have hlen : (getPartsPosesSim nParts rbStates).length = nE := by
    simp [getPartsPosesSim]
  refine ⟨hlen, ?_, ?_⟩
  · intro row hrow
    simp only [getPartsPosesSim, List.mem_map] at hrow
    obtain ⟨e, -, rfl⟩ := hrow
    rw [List.length_flatMap]
    have hf : (List.length ∘ fun p : Fin nParts =>
        List.map (fun k => rbStates e p k) (List.finRange 7)) =
        fun _ : Fin nParts => 7 := by
      funext p
      simp
    rw [hf]
    simp [mul_comm]
  · rw [baseRewardUnpack, unpackTwo_isSome_iff, hlen]

/-- Witness for C10: with exactly two environments the returned tensor
has two rows and the base-class unpacking succeeds. -/
theorem C10_witness :
    (@getPartsPosesSim 2 1 (fun _ _ _ => (0 : ℚ))).length = 2 ∧
    (@baseRewardUnpack 2 1 (fun _ _ _ => (0 : ℚ))).isSome = true := by
  have h := @C10_unpack_needs_two_envs 2 1 (fun _ _ _ => (0 : ℚ))
  exact ⟨h.1, h.2.2.mpr rfl⟩

end FurnitureBench
